import Mathlib

/-!
Verification development for the NFL cache-population script `cache_data.py`.

The script fetches schedule, scores and odds data from the sportsdata.io
HTTP API and persists each week as a flat file.  This file gives a shallow
embedding of its data model and operations:

* Python dict values appearing inside the flattened odds records are
  modelled by `FVal` (string / number / null); numbers are modelled as `Rat`
  since point spreads are half-integral.
* A raw per-sportsbook odds dict (`PregameOdds` entry) is `RawQuote`:
  the sportsbook tag and the home point spread are typed (they are the only
  values the script consumes), the remaining key-value pairs are carried as
  an association list.
* One parsed game record is `Game`; scores and status are nullable.
* The stateful parts (HTTP requests, file writes, log prints) are made
  explicit: every cache-writer returns an `Eff` record listing the request
  URLs issued, the `(filename, content)` pairs written (in order, later
  writes overwrite earlier ones) and the log lines printed.  The HTTP
  collaborator is a function from URL to `Response`, and the on-disk state
  consulted by the backfill orchestrator is a function from filename to
  `Bool`.
-/

/-- Values stored in a flattened odds record: string, rational number or
null (None / NaN in the source). -/
inductive FVal where
  | str (s : String)
  | num (q : Rat)
  | null
deriving DecidableEq, Repr

/-- One raw `PregameOdds` entry of a game, i.e. one sportsbook's dict.
`Sportsbook` and `HomePointSpread` are the two values the script reads
directly; every other key of the raw dict (the remaining eleven retained
columns and any API-internal extras) lives in `others`. -/
structure RawQuote where
  Sportsbook : String
  HomePointSpread : Option Rat
  others : List (String × FVal)
deriving DecidableEq, Repr

/-- One parsed game record of a week's JSON payload. -/
structure Game where
  HomeTeamName : String
  AwayTeamName : String
  HomeTeamScore : Option Rat
  AwayTeamScore : Option Rat
  Status : Option String
  PregameOdds : List RawQuote
deriving DecidableEq, Repr

/-- Embedding of `is_game_finished` (cache_data.py lines 56-69):
`game_data.get("Status", "") == "Final"`. -/
def is_game_finished (g : Game) : Bool :=
  (g.Status.getD "") == "Final"

/-- The consensus home spread extracted by the loop in
`compute_covered_team` (lines 91-94): the `HomePointSpread` value of the
first `PregameOdds` entry whose sportsbook is `"Consensus"` (the loop
breaks at the first hit), or `None` when there is no such entry. -/
def findConsensusSpread (odds : List RawQuote) : Option Rat :=
  match odds.find? (fun q => q.Sportsbook == "Consensus") with
  | none => none
  | some q => q.HomePointSpread

/-- Embedding of `compute_covered_team` (lines 71-107).  Returns
`"No Data"` when the consensus spread or either score is missing,
otherwise compares the spread-adjusted home score with the away score. -/
def compute_covered_team (g : Game) : String :=
  match findConsensusSpread g.PregameOdds, g.HomeTeamScore, g.AwayTeamScore with
  | some s, some h, some a =>
      if h + s > a then g.HomeTeamName
      else if h + s < a then g.AwayTeamName
      else "Push"
  | _, _, _ => "No Data"

/-- The `CoveredTeam` column assigned by `cache_odds_data` (lines 161-165):
`compute_covered_team(row) if is_game_finished(row) else "Pending"`. -/
def coveredTeamField (g : Game) : String :=
  if is_game_finished g then compute_covered_team g else "Pending"

/-- C1: for every game record processed by the odds flattener, CoveredTeam
is "Pending" whenever the status is not final; "No Data" whenever the game
is final and the consensus home spread or either score is missing; and
otherwise the home team if `h + s > a`, the away team if `h + s < a` and
"Push" on equality. -/
theorem coveredTeam_cases (g : Game) :
    ((g.Status.getD "") ≠ "Final" → coveredTeamField g = "Pending")
    ∧ ((g.Status.getD "") = "Final" →
        (findConsensusSpread g.PregameOdds = none ∨ g.HomeTeamScore = none
          ∨ g.AwayTeamScore = none) →
        coveredTeamField g = "No Data")
    ∧ (∀ s h a : Rat, (g.Status.getD "") = "Final" →
        findConsensusSpread g.PregameOdds = some s →
        g.HomeTeamScore = some h → g.AwayTeamScore = some a →
        coveredTeamField g =
          if h + s > a then g.HomeTeamName
          else if h + s < a then g.AwayTeamName else "Push") := by
  refine ⟨?_, ?_, ?_⟩
  · intro hst
    simp [coveredTeamField, is_game_finished, hst]
  · intro hst hmiss
    rcases hsp : findConsensusSpread g.PregameOdds with _ | s <;>
      rcases hh : g.HomeTeamScore with _ | h <;>
      rcases ha : g.AwayTeamScore with _ | a <;>
      simp [coveredTeamField, is_game_finished, hst, compute_covered_team,
        hsp, hh, ha] <;>
      · exfalso
        rcases hmiss with hc | hc | hc <;> simp_all
  · intro s h a hst hsp hh ha
    simp [coveredTeamField, is_game_finished, hst, compute_covered_team, hsp, hh, ha]

/-- Example game: home 20, away 17, consensus home spread -3.5, final. -/
def exGameAway : Game :=
  ⟨"HOU", "DAL", some 20, some 17, some "Final",
    [⟨"Consensus", some (-(7 / 2 : Rat)), [("HomeMoneyLine", FVal.num (-150))]⟩]⟩

/-- Witness for `coveredTeam_cases`: on the concrete final game with home
20, away 17 and consensus home spread -3.5 the covered team is the away
team (20 - 3.5 = 16.5 < 17). -/
theorem coveredTeam_cases_witness : coveredTeamField exGameAway = "DAL" := by
  have h := (coveredTeam_cases exGameAway).2.2 (-(7 / 2 : Rat)) 20 17
    rfl rfl rfl rfl
  rw [h]
  norm_num [exGameAway]

/-- C10: finished-ness is decided only by string equality of the status
with "Final" (a missing status defaults to the empty string), and any game
whose status is not exactly `some "Final"` is assigned CoveredTeam
"Pending" even when scores and a consensus spread are present. -/
theorem pending_iff_status_not_final (g : Game) :
    (is_game_finished g = true ↔ g.Status = some "Final")
    ∧ (g.Status ≠ some "Final" → coveredTeamField g = "Pending") := by
  constructor
  · rcases hs : g.Status with _ | st
    · simp [is_game_finished, hs]
    · simp [is_game_finished, hs]
  · intro hne
    rcases hs : g.Status with _ | st
    · simp [coveredTeamField, is_game_finished, hs]
    · have : st ≠ "Final" := by
        intro h
        exact hne (by rw [hs, h])
      simp [coveredTeamField, is_game_finished, hs, this]

/-- Example game finished in overtime: status "F/OT", scores and a
consensus spread present. -/
def exGameOT : Game :=
  ⟨"NYJ", "NE", some 23, some 20, some "F/OT",
    [⟨"Consensus", some (-(3 : Rat)), []⟩]⟩

/-- Witness for `pending_iff_status_not_final`: the "F/OT" game keeps
CoveredTeam "Pending" although both scores and the consensus spread are
present. -/
theorem pending_iff_status_not_final_witness :
    coveredTeamField exGameOT = "Pending" :=
  (pending_iff_status_not_final exGameOT).2 (by decide)

/-- The fixed attribute set retained for each odds entry
(`columns_to_keep`, cache_data.py line 140), in source order. -/
def columnsToKeep : List String :=
  ["Sportsbook", "HomeMoneyLine", "AwayMoneyLine", "DrawMoneyLine",
   "HomePointSpread", "AwayPointSpread", "HomePointSpreadPayout",
   "AwayPointSpreadPayout", "OverUnder", "OverPayout", "UnderPayout",
   "OddType"]

/-- The sportsbook allow-list (`accepted_books`, line 141). -/
def acceptedBooks : List String :=
  ["Consensus", "DraftKings", "FanDuel", "PointsBet", "BetMGM", "Caesars"]

/-- Key list of a flattened record (its dict keys, in column order). -/
def recKeys (r : List (String × FVal)) : List String := r.map Prod.fst

/-- Value lookup in a flattened record (first occurrence of the key). -/
def recGet (r : List (String × FVal)) (k : String) : Option FVal :=
  (r.find? (fun p => p.1 == k)).map Prod.snd

/-- Option Rat value rendered as a record value (None becomes null/NaN). -/
def optFV : Option Rat → FVal
  | none => FVal.null
  | some q => FVal.num q

/-- The full key-value view of a raw odds dict: the two typed fields
followed by the remaining raw pairs. -/
def rawQuoteFields (q : RawQuote) : List (String × FVal) :=
  ("Sportsbook", FVal.str q.Sportsbook)
    :: ("HomePointSpread", optFV q.HomePointSpread) :: q.others

/-- Column projection `pregameOdds[columns_to_keep]` (line 148): the result
carries exactly the twelve retained columns, a column missing from the raw
dict appearing as null (NaN). -/
def projectKept (fields : List (String × FVal)) : List (String × FVal) :=
  columnsToKeep.map (fun c => (c, (recGet fields c).getD FVal.null))

/-- One retained odds entry as it ends up inside the `Odds` column: the
projected columns plus the `index` join-key column added on line 149.  The
`index` column survives into the grouped records because the pandas
`groupby('index').apply(to_dict)` step passes each group including its
grouping column. -/
def flattenQuote (i : Nat) (q : RawQuote) : List (String × FVal) :=
  projectKept (rawQuoteFields q) ++ [("index", FVal.num (i : Rat))]

/-- The flattened `Odds` list of game number `i` (lines 145-159): filter
the raw `PregameOdds` by the sportsbook allow-list, then project each
retained entry. -/
def gameOdds (i : Nat) (g : Game) : List (List (String × FVal)) :=
  (g.PregameOdds.filter (fun q => acceptedBooks.contains q.Sportsbook)).map
    (flattenQuote i)

/-- One output row of the flattened odds frame: the game columns that
survive the final column drop (line 167), the embedded `Odds` list and the
computed `CoveredTeam`. -/
structure OutRow where
  HomeTeamName : String
  AwayTeamName : String
  HomeTeamScore : Option Rat
  AwayTeamScore : Option Rat
  Status : Option String
  Odds : List (List (String × FVal))
  CoveredTeam : String
deriving DecidableEq, Repr

/-- Flattening of game number `i` into its output row. -/
def flattenGame (i : Nat) (g : Game) : OutRow :=
  ⟨g.HomeTeamName, g.AwayTeamName, g.HomeTeamScore, g.AwayTeamScore,
    g.Status, gameOdds i g, coveredTeamField g⟩

/-- The full flattened odds frame of one week's game list.  Both the
one-game special case (line 157) and the general merge-by-index path
(line 159) associate to each game exactly its own filtered quote group, so
a single positional pass models either branch. -/
def flattenWeek (games : List Game) : List OutRow :=
  games.enum.map (fun p => flattenGame p.1 p.2)

/-- C2 counterexample input: one finished game carrying one retained
(Consensus) quote. -/
def exWeekOneGame : List Game :=
  [⟨"PHI", "SF", none, none, some "Scheduled",
    [⟨"Consensus", none, [("OverUnder", FVal.num 47)]⟩,
     ⟨"SomeOtherBook", none, []⟩]⟩]

/-- C2 counterexample: in the flattened week, the single game's single
retained odds entry does not carry exactly the fixed attribute set: the
internal `index` join-key column is an extra thirteenth field, so the
claim "no extra fields" fails on this concrete input. -/
theorem odds_entry_fields_counterexample :
    ((flattenWeek exWeekOneGame).map (fun r => r.Odds.map recKeys))
        = [[columnsToKeep ++ ["index"]]]
      ∧ columnsToKeep ++ ["index"] ≠ columnsToKeep := by
  constructor
  · rfl
  · decide

/-- C2 (amended): every entry of the flattened `Odds` list of any game of
any week comes from a raw quote whose sportsbook is in the allow-list, its
`Sportsbook` column holds that allow-listed name, and its keys are exactly
the fixed attribute set plus the internal `index` join-key column. -/
theorem odds_entry_fields_amended (games : List Game) :
    ∀ row ∈ flattenWeek games, ∀ e ∈ row.Odds,
      recKeys e = columnsToKeep ++ ["index"]
      ∧ ∃ b ∈ acceptedBooks, recGet e "Sportsbook" = some (FVal.str b) := by
  intro row hrow e he
  obtain ⟨p, hp, hpe⟩ := List.mem_map.mp hrow
  subst hpe
  obtain ⟨q, hq, hqe⟩ := List.mem_map.mp he
  subst hqe
  have hqmem := List.mem_filter.mp hq
  refine ⟨?_, q.Sportsbook, ?_, ?_⟩
  · rfl
  · have := hqmem.2
    simpa [acceptedBooks, List.contains_iff_exists_mem_beq] using this
  · simp [flattenQuote, recGet, projectKept, columnsToKeep, rawQuoteFields,
      List.find?]

/-- The retained quote of `exWeekOneGame`, as a named record. -/
def exQuoteC : RawQuote := ⟨"Consensus", none, [("OverUnder", FVal.num 47)]⟩

/-- Witness for `odds_entry_fields_amended` at the concrete one-game week:
the single retained entry has the fixed keys plus `index`, and its
`Sportsbook` column holds an allow-listed name. -/
theorem odds_entry_fields_witness :
    recKeys (flattenQuote 0 exQuoteC) = columnsToKeep ++ ["index"]
      ∧ ∃ b ∈ acceptedBooks,
          recGet (flattenQuote 0 exQuoteC) "Sportsbook" = some (FVal.str b) := by
  have hrow : flattenGame 0 (exWeekOneGame.get ⟨0, by simp [exWeekOneGame]⟩)
      ∈ flattenWeek exWeekOneGame := by
    simp [flattenWeek, exWeekOneGame]
  have he : flattenQuote 0 exQuoteC
      ∈ (flattenGame 0 (exWeekOneGame.get ⟨0, by simp [exWeekOneGame]⟩)).Odds := by
    simp [flattenGame, gameOdds, exWeekOneGame, exQuoteC, acceptedBooks]
  exact odds_entry_fields_amended exWeekOneGame _ hrow _ he

/-- Whether `p` is an initial segment of `l` (character lists). -/
def startsWithL : List Char → List Char → Bool
  | [], _ => true
  | _ :: _, [] => false
  | a :: as, b :: bs => a == b && startsWithL as bs

/-- Whether `pat` occurs contiguously inside `l`: embedding of the Python
substring test `pat in s`. -/
def containsSub : List Char → List Char → Bool
  | [], pat => startsWithL pat []
  | a :: t, pat => startsWithL pat (a :: t) || containsSub t pat

/-- Python `pat in s` on strings. -/
def strContains (s pat : String) : Bool :=
  containsSub s.data pat.data

/-- Python `s.endswith(pat)`. -/
def strEndsWith (s pat : String) : Bool :=
  startsWithL pat.data.reverse s.data.reverse

/-- Python `range(a, b)` as a list of integers. -/
def intRange (a b : Int) : List Int :=
  List.map (fun i : Nat => a + (i : Int)) (List.range (b - a).toNat)

/-- Python `range(a, b, -1)`: descending from `a` down to `b + 1`;
`rangeDown a b` descends from `a` down to `b` inclusive, matching
`range(a, b - 1, -1)` as used by the ATS builder. -/
def rangeDown (a b : Int) : List Int :=
  (intRange b (a + 1)).reverse

/-- Week range requested by `cache_odds_data` (lines 123-131), determined
from the season token by substring tests exactly as in the source:
`"PRE" in season`, `"POST" in season`, `str(THIS_YEAR) in season`.
`thisYearStr` is the decimal rendering of the module constant `THIS_YEAR`
and `thisWeek` the module constant `THIS_WEEK`. -/
def oddsWeekRange (thisYearStr : String) (thisWeek : Int) (season : String) :
    List Int :=
  if strContains season "PRE" then intRange 0 4
  else if strContains season "POST" then intRange 1 5
  else if strContains season thisYearStr then intRange 1 (thisWeek + 1)
  else intRange 1 18

/-- Week range requested by `cache_scores_data` (lines 184-192): identical
to the odds range except that the current REG season stops before the
current week (`range(1, THIS_WEEK)`). -/
def scoresWeekRange (thisYearStr : String) (thisWeek : Int) (season : String) :
    List Int :=
  if strContains season "PRE" then intRange 0 4
  else if strContains season "POST" then intRange 1 5
  else if strContains season thisYearStr then intRange 1 thisWeek
  else intRange 1 18

/-- A season-year token: every character is a decimal digit. -/
def allDigits (s : String) : Prop := ∀ c ∈ s.data, c.isDigit = true

instance (s : String) : Decidable (allDigits s) := by
  unfold allDigits
  infer_instance

theorem startsWithL_length {p l : List Char} (h : startsWithL p l = true) :
    p.length ≤ l.length := by
  induction p generalizing l with
  | nil => simp
  | cons a as ih =>
    cases l with
    | nil => simp [startsWithL] at h
    | cons b bs =>
      simp only [startsWithL, Bool.and_eq_true] at h
      simpa using ih h.2

theorem startsWithL_self_append (p t : List Char) :
    startsWithL p (p ++ t) = true := by
  induction p with
  | nil => rfl
  | cons a as ih => simp [startsWithL, ih]

theorem containsSub_of_startsWithL {l p : List Char}
    (h : startsWithL p l = true) : containsSub l p = true := by
  cases l with
  | nil =>
    cases p with
    | nil => rfl
    | cons a as => simp [startsWithL] at h
  | cons a t => simp [containsSub, h]

theorem containsSub_suffix (t p : List Char) :
    containsSub (t ++ p) p = true := by
  induction t with
  | nil => exact containsSub_of_startsWithL (by simpa using startsWithL_self_append p [])
  | cons a t ih => simp [containsSub, ih]

theorem mem_of_startsWithL {p l : List Char} (h : startsWithL p l = true) :
    ∀ c ∈ p, c ∈ l := by
  induction p generalizing l with
  | nil => simp
  | cons a as ih =>
    cases l with
    | nil => simp [startsWithL] at h
    | cons b bs =>
      simp only [startsWithL, Bool.and_eq_true, beq_iff_eq] at h
      intro c hc
      rcases List.mem_cons.mp hc with hc | hc
      · simp [hc, h.1]
      · exact List.mem_cons_of_mem _ (ih h.2 c hc)

theorem mem_of_containsSub {l p : List Char} (h : containsSub l p = true) :
    ∀ c ∈ p, c ∈ l := by
  induction l with
  | nil =>
    cases p with
    | nil => simp
    | cons a as => simp [containsSub, startsWithL] at h
  | cons a t ih =>
    simp only [containsSub, Bool.or_eq_true] at h
    rcases h with h | h
    · exact mem_of_startsWithL h
    · intro c hc
      exact List.mem_cons_of_mem _ (ih h c hc)

theorem containsSub_eq_false_of_not_mem {l p : List Char} {c : Char}
    (hc : c ∈ p) (hl : c ∉ l) : containsSub l p = false := by
  rcases h : containsSub l p with _ | _
  · rfl
  · exact absurd (mem_of_containsSub h c hc) hl

theorem startsWithL_append_left {p l1 : List Char} (l2 : List Char)
    (h : p.length ≤ l1.length) :
    startsWithL p (l1 ++ l2) = startsWithL p l1 := by
  induction p generalizing l1 with
  | nil => rfl
  | cons a as ih =>
    cases l1 with
    | nil => simp at h
    | cons b bs =>
      simp only [List.cons_append, startsWithL]
      exact congrArg (fun z => a == b && z) (ih (by simpa using h))

theorem startsWithL_iff_eq {p l : List Char} (h : p.length = l.length) :
    startsWithL p l = true ↔ p = l := by
  induction p generalizing l with
  | nil =>
    cases l with
    | nil => simp [startsWithL]
    | cons b bs => simp at h
  | cons a as ih =>
    cases l with
    | nil => simp at h
    | cons b bs =>
      simp only [startsWithL, Bool.and_eq_true, beq_iff_eq]
      rw [ih (by simpa using h)]
      simp

theorem mem_of_startsWithL_cross {p : List Char} {c : Char} {v : List Char} :
    ∀ {u : List Char}, startsWithL p (u ++ c :: v) = true →
      u.length < p.length → c ∈ p := by
  intro u
  induction u generalizing p with
  | nil =>
    intro h hlen
    cases p with
    | nil => simp at hlen
    | cons a as =>
      simp only [List.nil_append, startsWithL, Bool.and_eq_true, beq_iff_eq] at h
      simp [h.1]
  | cons b u ih =>
    intro h hlen
    cases p with
    | nil => simp at hlen
    | cons a as =>
      simp only [List.cons_append, startsWithL, Bool.and_eq_true] at h
      exact List.mem_cons_of_mem _ (ih h.2 (by simpa using hlen))

theorem containsSub_cross_false {p : List Char}
    (hp : ∀ x ∈ p, x.isDigit = true) {c : Char} (hc : c.isDigit = false)
    {v : List Char} (hv : ∀ x ∈ v, x.isDigit = false) :
    ∀ {u : List Char}, u.length < p.length →
      containsSub (u ++ c :: v) p = false := by
  intro u
  induction u with
  | nil =>
    intro hlen
    cases p with
    | nil => simp at hlen
    | cons a as =>
      have h1 : startsWithL (a :: as) (c :: v) = false := by
        have ha := hp a (by simp)
        have hac : (a == c) = false := by
          rcases hE : a == c with _ | _
          · rfl
          · rw [beq_iff_eq] at hE
            rw [hE, hc] at ha
            cases ha
        simp [startsWithL, hac]
      have h2 : containsSub v (a :: as) = false := by
        refine containsSub_eq_false_of_not_mem (c := a) (by simp) ?_
        intro hmem
        have := hv a hmem
        rw [hp a (by simp)] at this
        cases this
      simp [containsSub, h1, h2]
  | cons b u ih =>
    intro hlen
    have h1 : startsWithL p (b :: (u ++ c :: v)) = false := by
      rcases hE : startsWithL p ((b :: u) ++ c :: v) with _ | _
      · exact hE
      · exact absurd (hp c (mem_of_startsWithL_cross hE hlen)) (by simp [hc])
    have h2 : containsSub (u ++ c :: v) p = false := ih (by simp at hlen; omega)
    simp [containsSub, h1, h2]

theorem containsSub_digits_append {y p : List Char} {c : Char} {v : List Char}
    (hp : ∀ x ∈ p, x.isDigit = true) (hc : c.isDigit = false)
    (hv : ∀ x ∈ v, x.isDigit = false) (hlen : y.length = p.length) :
    (containsSub (y ++ c :: v) p = true ↔ p = y) := by
  cases y with
  | nil =>
    have hpn : p = [] := by
      cases p with
      | nil => rfl
      | cons a as => simp at hlen
    subst hpn
    simp [containsSub, startsWithL]
  | cons b y' =>
    have hstep : containsSub ((b :: y') ++ c :: v) p
        = (startsWithL p ((b :: y') ++ c :: v) || containsSub (y' ++ c :: v) p) := by
      rfl
    rw [hstep, startsWithL_append_left _ (le_of_eq hlen.symm),
      containsSub_cross_false hp hc hv (by simp at hlen; omega)]
    rw [Bool.or_false]
    exact startsWithL_iff_eq hlen.symm

theorem strContains_append_suffix (y pat : String) :
    strContains (y ++ pat) pat = true := by
  unfold strContains
  rw [String.data_append]
  exact containsSub_suffix _ _

theorem no_digit_char {y : String} (hy : allDigits y) {c : Char}
    (hc : c.isDigit = false) : c ∉ y.data := by
  intro hmem
  have := hy c hmem
  rw [hc] at this
  cases this

theorem strContains_PRE_of_POST {y : String} (hy : allDigits y) :
    strContains (y ++ "POST") "PRE" = false := by
  unfold strContains
  rw [String.data_append]
  refine containsSub_eq_false_of_not_mem (c := 'R') (by decide) ?_
  intro hmem
  rcases List.mem_append.mp hmem with h | h
  · exact no_digit_char hy (by decide) h
  · simp at h

theorem strContains_P_false {y : String} (hy : allDigits y) (pat : String)
    (hpat : 'P' ∈ pat.data) :
    strContains (y ++ "REG") pat = false := by
  unfold strContains
  rw [String.data_append]
  refine containsSub_eq_false_of_not_mem (c := 'P') hpat ?_
  intro hmem
  rcases List.mem_append.mp hmem with h | h
  · exact no_digit_char hy (by decide) h
  · simp at h

theorem strContains_year_REG {y ty : String} (hy : allDigits y)
    (hty : allDigits ty) (hl : y.data.length = ty.data.length) :
    (strContains (y ++ "REG") ty = true ↔ ty = y) := by
  unfold strContains
  rw [String.data_append]
  have h := containsSub_digits_append (y := y.data) (p := ty.data)
    (c := 'R') (v := ['E', 'G']) hty (by decide) (by decide) hl
  rw [show ("REG" : String).data = 'R' :: ['E', 'G'] from rfl]
  rw [h]
  constructor
  · intro hE
    exact String.ext hE
  · intro hE
    rw [hE]

theorem mem_intRange {w a b : Int} : w ∈ intRange a b ↔ a ≤ w ∧ w < b := by
  unfold intRange
  constructor
  · intro h
    obtain ⟨i, hi, hiw⟩ := List.mem_map.mp h
    have := List.mem_range.mp hi
    omega
  · intro h
    exact List.mem_map.mpr ⟨(w - a).toNat, List.mem_range.mpr (by omega), by omega⟩

/-- C3: the requested week range is determined by the season token's type
tag and the current week: any PRE season yields exactly weeks 0-3 and any
POST season exactly weeks 1-4 (odds and scores alike); a REG season of a
different year than the current one yields exactly weeks 1-17; the current
REG season yields weeks 1..THIS_WEEK for odds but only weeks
1..THIS_WEEK-1 for scores. -/
theorem week_range_policy (ty y : String) (tw : Int)
    (hty : allDigits ty) (hy : allDigits y)
    (hl : y.data.length = ty.data.length) :
    oddsWeekRange ty tw (y ++ "PRE") = [0, 1, 2, 3]
    ∧ scoresWeekRange ty tw (y ++ "PRE") = [0, 1, 2, 3]
    ∧ oddsWeekRange ty tw (y ++ "POST") = [1, 2, 3, 4]
    ∧ scoresWeekRange ty tw (y ++ "POST") = [1, 2, 3, 4]
    ∧ (y ≠ ty →
        (∀ w : Int, w ∈ oddsWeekRange ty tw (y ++ "REG") ↔ 1 ≤ w ∧ w ≤ 17)
        ∧ (∀ w : Int, w ∈ scoresWeekRange ty tw (y ++ "REG") ↔ 1 ≤ w ∧ w ≤ 17))
    ∧ (∀ w : Int, w ∈ oddsWeekRange ty tw (ty ++ "REG") ↔ 1 ≤ w ∧ w ≤ tw)
    ∧ (∀ w : Int, w ∈ scoresWeekRange ty tw (ty ++ "REG") ↔ 1 ≤ w ∧ w ≤ tw - 1) := by
  have hPRE := strContains_append_suffix y "PRE"
  have hPOSTs := strContains_append_suffix y "POST"
  have hPOSTn := strContains_PRE_of_POST hy
  have hREGp : strContains (y ++ "REG") "PRE" = false :=
    strContains_P_false hy "PRE" (by decide)
  have hREGpost : strContains (y ++ "REG") "POST" = false :=
    strContains_P_false hy "POST" (by decide)
  have hREGty := strContains_year_REG hy hty hl
  have hREGptt : strContains (ty ++ "REG") "PRE" = false :=
    strContains_P_false hty "PRE" (by decide)
  have hREGpostt : strContains (ty ++ "REG") "POST" = false :=
    strContains_P_false hty "POST" (by decide)
  have hREGtyt : strContains (ty ++ "REG") ty = true :=
    (strContains_year_REG hty hty rfl).mpr rfl
  refine ⟨?_, ?_, ?_, ?_, ?_, ?_, ?_⟩
  · rw [oddsWeekRange, hPRE]
    rfl
  · rw [scoresWeekRange, hPRE]
    rfl
  · rw [oddsWeekRange, hPOSTn, hPOSTs]
    rfl
  · rw [scoresWeekRange, hPOSTn, hPOSTs]
    rfl
  · intro hne
    have hf : strContains (y ++ "REG") ty = false := by
      rcases hE : strContains (y ++ "REG") ty with _ | _
      · rfl
      · exact absurd (hREGty.mp hE) (fun h => hne h.symm)
    constructor
    · intro w
      rw [oddsWeekRange, hREGp, hREGpost, hf]
      simp only [Bool.false_eq_true, if_false, mem_intRange]
      omega
    · intro w
      rw [scoresWeekRange, hREGp, hREGpost, hf]
      simp only [Bool.false_eq_true, if_false, mem_intRange]
      omega
  · intro w
    rw [oddsWeekRange, hREGptt, hREGpostt, hREGtyt]
    simp only [Bool.false_eq_true, if_false, if_true, mem_intRange]
    omega
  · intro w
    rw [scoresWeekRange, hREGptt, hREGpostt, hREGtyt]
    simp only [Bool.false_eq_true, if_false, if_true, mem_intRange]
    omega

/-- Witness for `week_range_policy` at the concrete seasons of the spec:
current year 2025 and week 5, past seasons of 2022. -/
theorem week_range_policy_witness :
    oddsWeekRange "2025" 5 ("2022" ++ "PRE") = [0, 1, 2, 3]
    ∧ oddsWeekRange "2025" 5 ("2022" ++ "POST") = [1, 2, 3, 4]
    ∧ (17 ∈ oddsWeekRange "2025" 5 ("2022" ++ "REG"))
    ∧ (5 ∈ oddsWeekRange "2025" 5 ("2025" ++ "REG"))
    ∧ (5 ∉ scoresWeekRange "2025" 5 ("2025" ++ "REG")) := by
  have h := week_range_policy "2025" "2022" 5 (by decide) (by decide) rfl
  refine ⟨h.1, h.2.2.1, ?_, ?_, ?_⟩
  · exact ((h.2.2.2.2.1 (by decide)).1 17).mpr (by omega)
  · exact (h.2.2.2.2.2.1 5).mpr (by omega)
  · intro hmem
    have := (h.2.2.2.2.2.2 5).mp hmem
    omega

/-- An HTTP response as consumed by the script: status code, the parsed
integer payload (for the current-season / current-week endpoints) and the
parsed game list payload (for the per-week data endpoints; the scores and
schedule endpoints are modelled with the same record shape). -/
structure Response where
  status : Nat
  intVal : Int
  games : List Game
deriving Repr

/-- Contents of one written cache file. -/
inductive FileData where
  | odds (rows : List OutRow)
  | raw (games : List Game)
deriving Repr

/-- Observable effects of a run fragment: HTTP request URLs issued, files
written as (name, content) pairs in order, and log lines printed. -/
structure Eff where
  requests : List String
  writes : List (String × FileData)
  logs : List String
deriving Repr

def emptyEff : Eff := ⟨[], [], []⟩

def appendEff (a b : Eff) : Eff :=
  ⟨a.requests ++ b.requests, a.writes ++ b.writes, a.logs ++ b.logs⟩

def concatEffs : List Eff → Eff
  | [] => emptyEff
  | e :: es => appendEff e (concatEffs es)

/-- Sequential per-week processing of the cache-writer for-loops. -/
def runWeeks (step : Int → Eff) : List Int → Eff
  | [] => emptyEff
  | w :: ws => appendEff (step w) (runWeeks step ws)

def apiBase : String := "https://api.sportsdata.io/v3/nfl/"

def apiKeyStr : String := "d387a5b9dd194415a38faf02fa8468ca"

def currentSeasonUrl : String :=
  apiBase ++ ("scores/json/CurrentSeason?key=" ++ apiKeyStr)

def currentWeekUrl : String :=
  apiBase ++ ("scores/json/CurrentWeek?key=" ++ apiKeyStr)

def oddsWeekUrl (season : String) (w : Int) : String :=
  apiBase ++ ("odds/json/GameOddsByWeek/"
    ++ (season ++ ("/" ++ (toString w ++ ("?key=" ++ apiKeyStr)))))

def scoresWeekUrl (season : String) (w : Int) : String :=
  apiBase ++ ("scores/json/ScoresByWeek/"
    ++ (season ++ ("/" ++ (toString w ++ ("?key=" ++ apiKeyStr)))))

def scheduleUrl (season : String) : String :=
  apiBase ++ ("scores/json/Schedules/" ++ (season ++ ("?key=" ++ apiKeyStr)))

/-- The season/week-named odds cache file `odds_data/{season}_{week}.csv`. -/
def oddsNamedFile (season : String) (w : Int) : String :=
  "odds_data/" ++ season ++ "_" ++ toString w ++ ".csv"

/-- The odds file actually chosen by lines 169-172: the week-number-only
comparison `THIS_WEEK != current_week` decides between the named file and
the fixed `current_week.csv` slot. -/
def oddsTargetFile (thisWeek : Int) (season : String) (w : Int) : String :=
  if thisWeek ≠ w then oddsNamedFile season w else "odds_data/current_week.csv"

def scoresNamedFile (season : String) (w : Int) : String :=
  "scores_data/" ++ season ++ "_" ++ toString w ++ ".csv"

def scheduleFile (season : String) : String :=
  "schedule_data/" ++ season ++ ".csv"

def oddsFailLog (season : String) (w : Int) (st : Nat) : String :=
  "Failed to fetch odds data for Week " ++ toString w ++ " of Season "
    ++ season ++ ". Status Code: " ++ toString st

def scoresFailLog (season : String) (w : Int) (st : Nat) : String :=
  "Failed to fetch scores data for Week " ++ toString w ++ " of Season "
    ++ season ++ ". Status Code: " ++ toString st

def scheduleFailLog (season : String) (st : Nat) : String :=
  "Failed to fetch schedule data for Season " ++ season
    ++ ". Status Code: " ++ toString st

/-- One iteration of the `cache_odds_data` week loop (lines 133-174): issue
the GET; on 200, flatten and write to the target file; otherwise print the
failure line and write nothing.  The loop body never raises: each branch
ends normally and processing moves to the next week. -/
def oddsWeekStep (thisWeek : Int) (season : String) (fetch : String → Response)
    (w : Int) : Eff :=
  let r := fetch (oddsWeekUrl season w)
  if r.status == 200 then
    ⟨[oddsWeekUrl season w],
      [(oddsTargetFile thisWeek season w, FileData.odds (flattenWeek r.games))],
      []⟩
  else
    ⟨[oddsWeekUrl season w], [], [oddsFailLog season w r.status]⟩

/-- Embedding of `cache_odds_data` (lines 115-174). -/
def cache_odds_data (thisYearStr : String) (thisWeek : Int) (season : String)
    (fetch : String → Response) : Eff :=
  runWeeks (oddsWeekStep thisWeek season fetch)
    (oddsWeekRange thisYearStr thisWeek season)

/-- One iteration of the `cache_scores_data` week loop (lines 194-202). -/
def scoresWeekStep (season : String) (fetch : String → Response)
    (w : Int) : Eff :=
  let r := fetch (scoresWeekUrl season w)
  if r.status == 200 then
    ⟨[scoresWeekUrl season w],
      [(scoresNamedFile season w, FileData.raw r.games)], []⟩
  else
    ⟨[scoresWeekUrl season w], [], [scoresFailLog season w r.status]⟩

/-- Embedding of `cache_scores_data` (lines 176-202). -/
def cache_scores_data (thisYearStr : String) (thisWeek : Int) (season : String)
    (fetch : String → Response) : Eff :=
  runWeeks (scoresWeekStep season fetch)
    (scoresWeekRange thisYearStr thisWeek season)

/-- Embedding of `cache_schedule_data` (lines 204-219). -/
def cache_schedule_data (season : String) (fetch : String → Response) : Eff :=
  let r := fetch (scheduleUrl season)
  if r.status == 200 then
    ⟨[scheduleUrl season], [(scheduleFile season, FileData.raw r.games)], []⟩
  else
    ⟨[scheduleUrl season], [], [scheduleFailLog season r.status]⟩

theorem runWeeks_logs_eq (f : Int → Eff) (P : Int → Bool) (L : Int → String)
    (h : ∀ w, (f w).logs = if P w then [] else [L w]) :
    ∀ ws : List Int,
      (runWeeks f ws).logs = (ws.filter (fun w => !P w)).map L := by
  intro ws
  induction ws with
  | nil => rfl
  | cons w ws ih =>
    simp only [runWeeks, appendEff, List.filter_cons]
    rcases hP : P w with _ | _
    · simp [h w, hP, ih]
    · simp [h w, hP, ih]

theorem runWeeks_writes_eq (f : Int → Eff) (P : Int → Bool)
    (W : Int → String × FileData)
    (h : ∀ w, (f w).writes = if P w then [W w] else []) :
    ∀ ws : List Int,
      (runWeeks f ws).writes = (ws.filter P).map W := by
  intro ws
  induction ws with
  | nil => rfl
  | cons w ws ih =>
    simp only [runWeeks, appendEff, List.filter_cons]
    rcases hP : P w with _ | _
    · simp [h w, hP, ih]
    · simp [h w, hP, ih]

theorem runWeeks_requests_eq (f : Int → Eff) (U : Int → String)
    (h : ∀ w, (f w).requests = [U w]) :
    ∀ ws : List Int, (runWeeks f ws).requests = ws.map U := by
  intro ws
  induction ws with
  | nil => rfl
  | cons w ws ih => simp [runWeeks, appendEff, h w, ih]

theorem oddsWeekStep_logs (thisWeek : Int) (season : String)
    (fetch : String → Response) (w : Int) :
    (oddsWeekStep thisWeek season fetch w).logs
      = if (fetch (oddsWeekUrl season w)).status == 200 then []
        else [oddsFailLog season w (fetch (oddsWeekUrl season w)).status] := by
  unfold oddsWeekStep
  rcases h : (fetch (oddsWeekUrl season w)).status == 200 with _ | _ <;> simp [h]

theorem oddsWeekStep_writes (thisWeek : Int) (season : String)
    (fetch : String → Response) (w : Int) :
    (oddsWeekStep thisWeek season fetch w).writes
      = if (fetch (oddsWeekUrl season w)).status == 200 then
          [(oddsTargetFile thisWeek season w,
            FileData.odds (flattenWeek (fetch (oddsWeekUrl season w)).games))]
        else [] := by
  unfold oddsWeekStep
  rcases h : (fetch (oddsWeekUrl season w)).status == 200 with _ | _ <;> simp [h]

theorem scoresWeekStep_logs (season : String)
    (fetch : String → Response) (w : Int) :
    (scoresWeekStep season fetch w).logs
      = if (fetch (scoresWeekUrl season w)).status == 200 then []
        else [scoresFailLog season w (fetch (scoresWeekUrl season w)).status] := by
  unfold scoresWeekStep
  rcases h : (fetch (scoresWeekUrl season w)).status == 200 with _ | _ <;> simp [h]

theorem scoresWeekStep_writes (season : String)
    (fetch : String → Response) (w : Int) :
    (scoresWeekStep season fetch w).writes
      = if (fetch (scoresWeekUrl season w)).status == 200 then
          [(scoresNamedFile season w,
            FileData.raw (fetch (scoresWeekUrl season w)).games)]
        else [] := by
  unfold scoresWeekStep
  rcases h : (fetch (scoresWeekUrl season w)).status == 200 with _ | _ <;> simp [h]

/-- C5: failure handling of the per-week cache writers.  For both the odds
and the scores writer: a week whose response has a non-200 status
contributes exactly one log line (naming season, week and status code) and
no file write; the whole batch's log list is exactly one such line per
failing week of the range and its write list covers exactly the successful
weeks, so every week is processed regardless of any other week's failure
and the writers return normally (they are total functions). -/
theorem nonfatal_week_failure (ty season : String) (tw : Int)
    (fetch : String → Response) :
    (∀ w, (fetch (oddsWeekUrl season w)).status ≠ 200 →
      oddsWeekStep tw season fetch w
        = ⟨[oddsWeekUrl season w], [],
            [oddsFailLog season w (fetch (oddsWeekUrl season w)).status]⟩)
    ∧ (cache_odds_data ty tw season fetch).logs
        = ((oddsWeekRange ty tw season).filter
            (fun w => !((fetch (oddsWeekUrl season w)).status == 200))).map
          (fun w => oddsFailLog season w (fetch (oddsWeekUrl season w)).status)
    ∧ (cache_odds_data ty tw season fetch).writes
        = ((oddsWeekRange ty tw season).filter
            (fun w => (fetch (oddsWeekUrl season w)).status == 200)).map
          (fun w => (oddsTargetFile tw season w,
            FileData.odds (flattenWeek (fetch (oddsWeekUrl season w)).games)))
    ∧ (∀ w, (fetch (scoresWeekUrl season w)).status ≠ 200 →
      scoresWeekStep season fetch w
        = ⟨[scoresWeekUrl season w], [],
            [scoresFailLog season w (fetch (scoresWeekUrl season w)).status]⟩)
    ∧ (cache_scores_data ty tw season fetch).logs
        = ((scoresWeekRange ty tw season).filter
            (fun w => !((fetch (scoresWeekUrl season w)).status == 200))).map
          (fun w => scoresFailLog season w (fetch (scoresWeekUrl season w)).status) := by
  refine ⟨?_, ?_, ?_, ?_, ?_⟩
  · intro w hw
    unfold oddsWeekStep
    have : ((fetch (oddsWeekUrl season w)).status == 200) = false := by
      simpa using hw
    simp [this]
  · exact runWeeks_logs_eq _ _ _ (oddsWeekStep_logs tw season fetch) _
  · exact runWeeks_writes_eq _ _ _ (oddsWeekStep_writes tw season fetch) _
  · intro w hw
    unfold scoresWeekStep
    have : ((fetch (scoresWeekUrl season w)).status == 200) = false := by
      simpa using hw
    simp [this]
  · exact runWeeks_logs_eq _ _ _ (scoresWeekStep_logs season fetch) _

/-- Witness for `nonfatal_week_failure`: with every response a 404, week 2
of season 2022POST yields exactly its failure log line and no write. -/
theorem nonfatal_week_failure_witness :
    oddsWeekStep 5 "2022POST" (fun u => ⟨404, 0, []⟩) 2
      = ⟨[oddsWeekUrl "2022POST" 2], [],
          [oddsFailLog "2022POST" 2 404]⟩ :=
  (nonfatal_week_failure "2025" "2022POST" 5 (fun u => ⟨404, 0, []⟩)).1 2
    (by decide)

/-- Fetch environment for the C4 counterexample: only week 3 of season
2022POST answers 200 (with a one-game payload), everything else fails. -/
def fetchWk3 : String → Response := fun u =>
  if u = oddsWeekUrl "2022POST" 3 then ⟨200, 0, exWeekOneGame⟩
  else ⟨404, 0, []⟩

/-- C4 counterexample: with the resolved current week equal to 3, the
successfully fetched week 3 of the past season 2022POST is written to the
fixed `current_week.csv` slot and its season/week-named file
`odds_data/2022POST_3.csv` is not written at all, refuting "weeks of past
seasons always produce their season/week-named file". -/
theorem odds_persist_target_counterexample :
    ((cache_odds_data "2025" 3 "2022POST" fetchWk3).writes.map Prod.fst)
        = ["odds_data/current_week.csv"]
      ∧ "odds_data/current_week.csv" ≠ oddsNamedFile "2022POST" 3 := by
  constructor
  · decide
  · decide

/-- C4 (amended): every successfully fetched odds week is persisted, and
the target file is the fixed `current_week.csv` slot exactly when the
week number equals the resolved current week — regardless of which season
is being fetched — and the season/week-named file otherwise. -/
theorem odds_persist_target_amended (ty season : String) (tw : Int)
    (fetch : String → Response) (w : Int)
    (hw : w ∈ oddsWeekRange ty tw season)
    (h200 : (fetch (oddsWeekUrl season w)).status = 200) :
    (oddsTargetFile tw season w,
        FileData.odds (flattenWeek (fetch (oddsWeekUrl season w)).games))
        ∈ (cache_odds_data ty tw season fetch).writes
    ∧ oddsTargetFile tw season w
        = (if w = tw then "odds_data/current_week.csv"
           else oddsNamedFile season w) := by
  constructor
  · rw [cache_odds_data,
      runWeeks_writes_eq _ _ _ (oddsWeekStep_writes tw season fetch)]
    refine List.mem_map.mpr ⟨w, List.mem_filter.mpr ⟨hw, ?_⟩, rfl⟩
    simp [h200]
  · unfold oddsTargetFile
    rcases eq_or_ne w tw with h | h
    · simp [h]
    · simp [h, Ne.symm h]

/-- Witness for `odds_persist_target_amended`: week 1 of 2022POST (current
week 3) is persisted to its season/week-named file. -/
theorem odds_persist_target_witness :
    (oddsTargetFile 3 "2022POST" 1,
        FileData.odds (flattenWeek exWeekOneGame))
        ∈ (cache_odds_data "2025" 3 "2022POST"
            (fun u => ⟨200, 0, exWeekOneGame⟩)).writes
      ∧ oddsTargetFile 3 "2022POST" 1
          = (if (1 : Int) = 3 then "odds_data/current_week.csv"
             else oddsNamedFile "2022POST" 1) :=
  odds_persist_target_amended "2025" "2022POST" 3
    (fun u => ⟨200, 0, exWeekOneGame⟩) 1 (by decide) rfl

/-- The fixed list of historical seasons the backfill orchestrator
guarantees (line 277). -/
def seasonsToCache : List String := ["2023PRE", "2022POST", "2022REG", "2022PRE"]

/-- Week range used by the orchestrator's own existence checks
(lines 287-292); unlike the writers it never consults the current week. -/
def oldSeasonWeekRange (season : String) : List Int :=
  if strContains season "PRE" then intRange 0 4
  else if strContains season "POST" then intRange 1 5
  else intRange 1 18

/-- Progress lines printed around a conditional cache-writer invocation. -/
def wrapLogs (pre post : String) (e : Eff) : Eff :=
  ⟨e.requests, e.writes, pre :: e.logs ++ [post]⟩

/-- Schedule part of one backfill season (lines 281-284). -/
def backfillSchedule (exists? : String → Bool) (fetch : String → Response)
    (season : String) : Eff :=
  if exists? (scheduleFile season) then emptyEff
  else wrapLogs ("Caching schedule data for " ++ season)
    ("Done. Schedule data cached for " ++ season)
    (cache_schedule_data season fetch)

/-- Odds part of one backfill season for one week (lines 294-298): a
missing week triggers a full-season `cache_odds_data` run. -/
def backfillOddsWeek (ty : String) (tw : Int) (exists? : String → Bool)
    (fetch : String → Response) (season : String) (w : Int) : Eff :=
  if exists? (oddsNamedFile season w) then emptyEff
  else wrapLogs ("Caching odds data for " ++ season ++ " Week " ++ toString w)
    ("Done. Odds data cached for " ++ season ++ " Week " ++ toString w)
    (cache_odds_data ty tw season fetch)

/-- Scores part of one backfill season for one week (lines 301-305). -/
def backfillScoresWeek (ty : String) (tw : Int) (exists? : String → Bool)
    (fetch : String → Response) (season : String) (w : Int) : Eff :=
  if exists? (scoresNamedFile season w) then emptyEff
  else wrapLogs ("Caching scores data for " ++ season ++ " Week " ++ toString w)
    ("Done. Scores data cached for " ++ season ++ " Week " ++ toString w)
    (cache_scores_data ty tw season fetch)

/-- One backfill season (body of the loop at line 279). -/
def backfillSeason (ty : String) (tw : Int) (exists? : String → Bool)
    (fetch : String → Response) (season : String) : Eff :=
  appendEff (backfillSchedule exists? fetch season)
    (appendEff
      (concatEffs ((oldSeasonWeekRange season).map
        (backfillOddsWeek ty tw exists? fetch season)))
      (concatEffs ((oldSeasonWeekRange season).map
        (backfillScoresWeek ty tw exists? fetch season))))

/-- Embedding of `cache_old_data` (lines 271-305). -/
def cache_old_data (ty : String) (tw : Int) (exists? : String → Bool)
    (fetch : String → Response) : Eff :=
  concatEffs (seasonsToCache.map (backfillSeason ty tw exists? fetch))

theorem concatEffs_empty {α : Type} (f : α → Eff) :
    ∀ l : List α, (∀ x ∈ l, f x = emptyEff) → concatEffs (l.map f) = emptyEff := by
  intro l
  induction l with
  | nil => intro _; rfl
  | cons a t ih =>
    intro h
    have ha := h a (by simp)
    have ht := ih (fun x hx => h x (List.mem_cons_of_mem _ hx))
    simp only [List.map_cons, concatEffs, ha, ht]
    rfl

/-- C6: running the backfill orchestrator in a state where, for every
season of its fixed list, the schedule file and every type-determined
week's odds and scores files already exist performs zero HTTP calls and
writes no files. -/
theorem backfill_idempotent (ty : String) (tw : Int)
    (exists? : String → Bool) (fetch : String → Response)
    (hsched : ∀ season ∈ seasonsToCache, exists? (scheduleFile season) = true)
    (hodds : ∀ season ∈ seasonsToCache, ∀ w ∈ oldSeasonWeekRange season,
      exists? (oddsNamedFile season w) = true)
    (hscores : ∀ season ∈ seasonsToCache, ∀ w ∈ oldSeasonWeekRange season,
      exists? (scoresNamedFile season w) = true) :
    (cache_old_data ty tw exists? fetch).requests = []
      ∧ (cache_old_data ty tw exists? fetch).writes = [] := by
  have h : cache_old_data ty tw exists? fetch = emptyEff := by
    unfold cache_old_data
    refine concatEffs_empty _ _ ?_
    intro season hseason
    unfold backfillSeason
    have h1 : backfillSchedule exists? fetch season = emptyEff := by
      unfold backfillSchedule
      rw [hsched season hseason]
      rfl
    have h2 : concatEffs ((oldSeasonWeekRange season).map
        (backfillOddsWeek ty tw exists? fetch season)) = emptyEff := by
      refine concatEffs_empty _ _ ?_
      intro w hw
      unfold backfillOddsWeek
      rw [hodds season hseason w hw]
      rfl
    have h3 : concatEffs ((oldSeasonWeekRange season).map
        (backfillScoresWeek ty tw exists? fetch season)) = emptyEff := by
      refine concatEffs_empty _ _ ?_
      intro w hw
      unfold backfillScoresWeek
      rw [hscores season hseason w hw]
      rfl
    rw [h1, h2, h3]
    rfl
  rw [h]
  exact ⟨rfl, rfl⟩

/-- Witness for `backfill_idempotent`: with every file reported present,
the orchestrator issues no requests and writes nothing. -/
theorem backfill_idempotent_witness :
    (cache_old_data "2025" 5 (fun f => true) (fun u => ⟨404, 0, []⟩)).requests = []
      ∧ (cache_old_data "2025" 5 (fun f => true) (fun u => ⟨404, 0, []⟩)).writes = [] :=
  backfill_idempotent "2025" 5 (fun f => true) (fun u => ⟨404, 0, []⟩)
    (by intro s hs; rfl) (by intro s hs w hw; rfl) (by intro s hs w hw; rfl)

/-- Gregorian leap-year test. -/
def isLeap (y : Nat) : Bool := (y % 4 == 0 && y % 100 != 0) || (y % 400 == 0)

/-- Days elapsed before month `m` within year `y`. -/
def monthDaysBefore (y m : Nat) : Nat :=
  [0, 31, 59, 90, 120, 151, 181, 212, 243, 273, 304, 334].getD (m - 1) 0
    + (if 2 < m && isLeap y then 1 else 0)

/-- Proleptic-Gregorian day number of a date (Jan 1 of year 1 is day 1):
the day-count arithmetic underlying Python `datetime.date`. -/
def rataDie (y m d : Nat) : Nat :=
  365 * (y - 1) + (y - 1) / 4 - (y - 1) / 100 + (y - 1) / 400
    + monthDaysBefore y m + d

/-- Python `date.weekday()`: Monday is 0, ..., Thursday is 3. -/
def weekdayOf (rd : Nat) : Nat := (rd + 6) % 7

/-- The `while start_of_season.weekday() != 3` loop of `fetch_current_week`
(lines 50-51), fuelled: seven steps always suffice to reach a Thursday. -/
def advanceToThursday : Nat → Nat → Nat
  | 0, rd => rd
  | f + 1, rd => if weekdayOf rd == 3 then rd else advanceToThursday f (rd + 1)

/-- `start_of_season` of the week fallback (lines 49-51): advance from
September 1 of the given year to the next Thursday. -/
def startOfSeason (y : Nat) : Nat := advanceToThursday 7 (rataDie y 9 1)

/-- Fallback season year of `fetch_current_season_year` (lines 27-30):
the current calendar year when the month is at least February, otherwise
the previous year. -/
def fallbackSeasonYear (month year : Nat) : Nat :=
  if 2 ≤ month then year else year - 1

/-- Fallback week of `fetch_current_week` (lines 45-54) for today's date
(y, m, d): complete 7-day periods since the first Thursday of September
of the CURRENT CALENDAR YEAR (`today_date.year`, line 49), plus one.
Python `//` is floor division, hence `Int.fdiv`. -/
def fallbackWeek (ty tm td : Nat) : Int :=
  ((rataDie ty tm td : Int) - (startOfSeason ty : Int)).fdiv 7 + 1

/-- Modelled from the spec's words, for comparison with `fallbackWeek`:
the week computed from the first Thursday of September of the RESOLVED
season year (the year the season-year fallback returns), as claim C7
states it. -/
def specFallbackWeek (ty tm td : Nat) : Int :=
  ((rataDie ty tm td : Int)
    - (startOfSeason (fallbackSeasonYear tm ty) : Int)).fdiv 7 + 1

theorem advance_steps : ∀ (f rd k : Nat), k ≤ f →
    (∀ j < k, weekdayOf (rd + j) ≠ 3) → weekdayOf (rd + k) = 3 →
    advanceToThursday f rd = rd + k := by
  intro f
  induction f with
  | zero =>
    intro rd k hk _ hhit
    have : k = 0 := by omega
    subst this
    simp [advanceToThursday]
  | succ f ih =>
    intro rd k hk hmiss hhit
    rcases Nat.eq_zero_or_pos k with h0 | hpos
    · subst h0
      simp only [Nat.add_zero] at hhit
      simp [advanceToThursday, hhit]
    · have hm0 : weekdayOf rd ≠ 3 := by
        have := hmiss 0 hpos
        simpa using this
      have hstep : advanceToThursday (f + 1) rd = advanceToThursday f (rd + 1) := by
        have : (weekdayOf rd == 3) = false := by simpa using hm0
        simp [advanceToThursday, this]
      rw [hstep, ih (rd + 1) (k - 1) (by omega)
        (fun j hj => by
          have := hmiss (j + 1) (by omega)
          simpa [Nat.add_assoc, Nat.add_comm 1 j] using this)
        (by
          have : rd + 1 + (k - 1) = rd + k := by omega
          rw [this]
          exact hhit)]
      omega

theorem advanceToThursday_spec (rd : Nat) :
    rd ≤ advanceToThursday 7 rd
    ∧ advanceToThursday 7 rd ≤ rd + 6
    ∧ weekdayOf (advanceToThursday 7 rd) = 3
    ∧ ∀ x, rd ≤ x → x < advanceToThursday 7 rd → weekdayOf x ≠ 3 := by
  have hmain : advanceToThursday 7 rd = rd + (10 - weekdayOf rd) % 7 := by
    refine advance_steps 7 rd ((10 - weekdayOf rd) % 7) ?_ ?_ ?_
    · have : weekdayOf rd < 7 := Nat.mod_lt _ (by omega)
      omega
    · intro j hj
      unfold weekdayOf at *
      omega
    · unfold weekdayOf at *
      omega
  rw [hmain]
  refine ⟨by omega, ?_, ?_, ?_⟩
  · unfold weekdayOf at *
    omega
  · unfold weekdayOf at *
    omega
  · intro x hx1 hx2
    unfold weekdayOf at *
    omega

/-- C7 counterexample: on January 15, 2026 the resolved season year is
2025, so the claim's week formula counts from the first Thursday of
September 2025 and yields week 20; the code counts from the first
Thursday of September of the current calendar year 2026 (line 49,
`today_date.year`) and yields -32. -/
theorem fallback_resolver_counterexample :
    fallbackSeasonYear 1 2026 = 2025
    ∧ fallbackWeek 2026 1 15 = -32
    ∧ specFallbackWeek 2026 1 15 = 20
    ∧ fallbackWeek 2026 1 15 ≠ specFallbackWeek 2026 1 15 := by
  refine ⟨by decide, by decide, by decide, by decide⟩

/-- C7 (amended): the fallback resolver computes the season year as the
current calendar year when the month is at least February and the
previous year otherwise; and it computes the week as the number of
complete 7-day periods elapsed since the first Thursday of September of
the CURRENT CALENDAR YEAR, plus one — `startOfSeason` really is that
first Thursday: it is a Thursday, lies within September 1-7, and no
earlier day from September 1 on is a Thursday. -/
theorem fallback_resolver_amended (y m d : Nat) :
    (2 ≤ m → fallbackSeasonYear m y = y)
    ∧ (m < 2 → fallbackSeasonYear m y = y - 1)
    ∧ rataDie y 9 1 ≤ startOfSeason y
    ∧ startOfSeason y ≤ rataDie y 9 1 + 6
    ∧ weekdayOf (startOfSeason y) = 3
    ∧ (∀ x, rataDie y 9 1 ≤ x → x < startOfSeason y → weekdayOf x ≠ 3)
    ∧ (∀ k : Int, fallbackWeek y m d = k + 1 ↔
        7 * k ≤ (rataDie y m d : Int) - (startOfSeason y : Int)
        ∧ (rataDie y m d : Int) - (startOfSeason y : Int) < 7 * (k + 1)) := by
  obtain ⟨h1, h2, h3, h4⟩ := advanceToThursday_spec (rataDie y 9 1)
  refine ⟨?_, ?_, h1, h2, h3, h4, ?_⟩
  · intro hm
    simp [fallbackSeasonYear, hm]
  · intro hm
    have : ¬(2 ≤ m) := by omega
    simp [fallbackSeasonYear, this]
  · intro k
    unfold fallbackWeek
    rw [Int.fdiv_eq_ediv _ (by omega)]
    omega

/-- Witness for `fallback_resolver_amended`: on October 12, 2025 the
fallback year is 2025 and the fallback week is 6 (the sixth week since
Thursday September 4, 2025). -/
theorem fallback_resolver_witness :
    fallbackSeasonYear 10 2025 = 2025 ∧ fallbackWeek 2025 10 12 = 5 + 1 := by
  refine ⟨(fallback_resolver_amended 2025 10 12).1 (by omega), ?_⟩
  exact ((fallback_resolver_amended 2025 10 12).2.2.2.2.2.2 5).mpr
    ⟨by decide, by decide⟩

/-- One (home, away, covered) triple extracted from a cached odds file by
the ATS builder (line 248). -/
structure RRow where
  home : String
  away : String
  covered : String
deriving DecidableEq, Repr

/-- One ATS week-group as appended on lines 249-253. -/
structure AtsGroup where
  season_type : String
  week : Int
  results : List RRow
deriving DecidableEq, Repr


/-- The inner `for week in range(end_week, start_week - 1, -1)` loop of
`cache_ats_data` (lines 237-257).  `read` models `pd.read_csv` followed by
the three-column extraction; `needed` is `weeks_needed` (a Python int,
hence `Int`).  A week whose file exists — or that equals the module
constant `THIS_WEEK`, falling back to the `current_week.csv` slot — is
appended and decrements `needed`, breaking when it reaches exactly 0;
other weeks are skipped.  Returns the grown accumulator and the remaining
`weeks_needed`. -/
def atsPass (exists? : String → Bool) (read : String → List RRow)
    (thisWeek : Int) (stype : String) :
    List Int → Int → List AtsGroup → List AtsGroup × Int
  | [], needed, acc => (acc, needed)
  | w :: ws, needed, acc =>
    if exists? (oddsNamedFile stype w) then
      let acc2 := acc ++ [⟨stype, w, read (oddsNamedFile stype w)⟩]
      if needed - 1 = 0 then (acc2, 0)
      else atsPass exists? read thisWeek stype ws (needed - 1) acc2
    else if thisWeek == w then
      let acc2 := acc ++ [⟨stype, w, read "odds_data/current_week.csv"⟩]
      if needed - 1 = 0 then (acc2, 0)
      else atsPass exists? read thisWeek stype ws (needed - 1) acc2
    else atsPass exists? read thisWeek stype ws needed acc

/-- The outer `while weeks_needed > 0` loop of `cache_ats_data`
(lines 236-266), fuelled to keep the model total: each recursive call is
one more execution of the loop body.  For the season types the script
passes (a REG token, switching once to the same year's PRE token) at most
three iterations occur, so any fuel of at least 3 gives the loop's exact
behaviour; the wrapper below uses fuel 12. -/
def atsLoop (exists? : String → Bool) (read : String → List RRow)
    (seasonYear : Int) (thisWeek : Int) :
    Nat → String → Int → Int → List AtsGroup → List AtsGroup
  | 0, _, _, _, acc => acc
  | fuel + 1, stype, endW, needed, acc =>
    if needed ≤ 0 then acc
    else
      let p := atsPass exists? read thisWeek stype
        (rangeDown endW (endW - needed + 1)) needed acc
      if p.2 ≤ 0 then p.1
      else if strEndsWith stype "REG" then
        atsLoop exists? read seasonYear thisWeek fuel
          (toString seasonYear ++ "PRE") 3 p.2 p.1
      else if strEndsWith stype "PRE" then p.1
      else atsLoop exists? read seasonYear thisWeek fuel stype endW p.2 p.1

/-- Embedding of `cache_ats_data` (lines 221-269): the collected list of
week-groups, walking back from the freshly fetched current week `endW`
with a 10-week target. -/
def cache_ats_data (exists? : String → Bool) (read : String → List RRow)
    (stype : String) (seasonYear : Int) (endW thisWeek : Int) :
    List AtsGroup :=
  atsLoop exists? read seasonYear thisWeek 12 stype endW 10 []

theorem strEndsWith_append_self (s t : String) :
    strEndsWith (s ++ t) t = true := by
  unfold strEndsWith
  rw [String.data_append, List.reverse_append]
  exact startsWithL_self_append _ _

theorem strEndsWith_PRE_REG (s : String) :
    strEndsWith (s ++ "PRE") "REG" = false := by
  unfold strEndsWith
  rw [String.data_append, List.reverse_append]
  rfl

theorem atsPass_nil {e : String → Bool} {r : String → List RRow}
    {tw : Int} {st : String} {needed : Int} {acc : List AtsGroup} :
    atsPass e r tw st [] needed acc = (acc, needed) := rfl

theorem atsPass_cons_hit {e : String → Bool} {r : String → List RRow}
    {tw : Int} {st : String} {w : Int} {ws : List Int} {needed : Int}
    {acc : List AtsGroup}
    (h : e (oddsNamedFile st w) = true) (hn : needed - 1 ≠ 0) :
    atsPass e r tw st (w :: ws) needed acc
      = atsPass e r tw st ws (needed - 1)
          (acc ++ [⟨st, w, r (oddsNamedFile st w)⟩]) := by
  simp [atsPass, h, hn]

theorem atsPass_cons_skip {e : String → Bool} {r : String → List RRow}
    {tw : Int} {st : String} {w : Int} {ws : List Int} {needed : Int}
    {acc : List AtsGroup}
    (h : e (oddsNamedFile st w) = false) (hw : (tw == w) = false) :
    atsPass e r tw st (w :: ws) needed acc
      = atsPass e r tw st ws needed acc := by
  simp [atsPass, h, hw]

theorem atsLoop_step {e : String → Bool} {r : String → List RRow}
    {y tw : Int} (fuel : Nat) {st : String} {endW needed : Int}
    {acc : List AtsGroup} (hpos : ¬(needed ≤ 0)) :
    atsLoop e r y tw (fuel + 1) st endW needed acc
      = (let p := atsPass e r tw st (rangeDown endW (endW - needed + 1))
            needed acc
         if p.2 ≤ 0 then p.1
         else if strEndsWith st "REG" then
           atsLoop e r y tw fuel (toString y ++ "PRE") 3 p.2 p.1
         else if strEndsWith st "PRE" then p.1
         else atsLoop e r y tw fuel st endW p.2 p.1) := by
  rw [atsLoop, if_neg hpos]

/-- C8: when the current REG week is 2 and the five reachable odds files
exist (REG weeks 1-2 and PRE weeks 1-3 of the same year, with no files for
the non-positive week numbers the backward walk also probes), the ATS
builder collects exactly the five week-groups REG 2, REG 1, PRE 3, PRE 2,
PRE 1 in that order and stops after PRE is exhausted, returning normally
with fewer than the 10-week target. -/
theorem ats_window_boundary (y : Int) (exists? : String → Bool)
    (read : String → List RRow)
    (hR1 : exists? (oddsNamedFile (toString y ++ "REG") 1) = true)
    (hR2 : exists? (oddsNamedFile (toString y ++ "REG") 2) = true)
    (hP1 : exists? (oddsNamedFile (toString y ++ "PRE") 1) = true)
    (hP2 : exists? (oddsNamedFile (toString y ++ "PRE") 2) = true)
    (hP3 : exists? (oddsNamedFile (toString y ++ "PRE") 3) = true)
    (hRm : ∀ w ∈ ([0, -1, -2, -3, -4, -5, -6, -7] : List Int),
      exists? (oddsNamedFile (toString y ++ "REG") w) = false)
    (hPm : ∀ w ∈ ([0, -1, -2, -3, -4] : List Int),
      exists? (oddsNamedFile (toString y ++ "PRE") w) = false) :
    cache_ats_data exists? read (toString y ++ "REG") y 2 2
      = [⟨toString y ++ "REG", 2, read (oddsNamedFile (toString y ++ "REG") 2)⟩,
         ⟨toString y ++ "REG", 1, read (oddsNamedFile (toString y ++ "REG") 1)⟩,
         ⟨toString y ++ "PRE", 3, read (oddsNamedFile (toString y ++ "PRE") 3)⟩,
         ⟨toString y ++ "PRE", 2, read (oddsNamedFile (toString y ++ "PRE") 2)⟩,
         ⟨toString y ++ "PRE", 1, read (oddsNamedFile (toString y ++ "PRE") 1)⟩] := by
  have r0 := hRm 0 (by decide)
  have r1 := hRm (-1) (by decide)
  have r2 := hRm (-2) (by decide)
  have r3 := hRm (-3) (by decide)
  have r4 := hRm (-4) (by decide)
  have r5 := hRm (-5) (by decide)
  have r6 := hRm (-6) (by decide)
  have r7 := hRm (-7) (by decide)
  have p0 := hPm 0 (by decide)
  have p1 := hPm (-1) (by decide)
  have p2 := hPm (-2) (by decide)
  have p3 := hPm (-3) (by decide)
  have p4 := hPm (-4) (by decide)
  have hrange1 : rangeDown 2 (2 - 10 + 1) = [2, 1, 0, -1, -2, -3, -4, -5, -6, -7] := by
    decide
  have hrange2 : rangeDown 3 (3 - 8 + 1) = [3, 2, 1, 0, -1, -2, -3, -4] := by decide
  have hp1 : atsPass exists? read 2 (toString y ++ "REG")
      (rangeDown 2 (2 - 10 + 1)) 10 []
      = ([⟨toString y ++ "REG", 2, read (oddsNamedFile (toString y ++ "REG") 2)⟩,
          ⟨toString y ++ "REG", 1, read (oddsNamedFile (toString y ++ "REG") 1)⟩],
         8) := by
    rw [hrange1, atsPass_cons_hit hR2 (by norm_num),
      atsPass_cons_hit hR1 (by norm_num),
      atsPass_cons_skip r0 (by decide), atsPass_cons_skip r1 (by decide),
      atsPass_cons_skip r2 (by decide), atsPass_cons_skip r3 (by decide),
      atsPass_cons_skip r4 (by decide), atsPass_cons_skip r5 (by decide),
      atsPass_cons_skip r6 (by decide), atsPass_cons_skip r7 (by decide),
      atsPass_nil]
    norm_num
  have hp2 : atsPass exists? read 2 (toString y ++ "PRE")
      (rangeDown 3 (3 - 8 + 1)) 8
      [⟨toString y ++ "REG", 2, read (oddsNamedFile (toString y ++ "REG") 2)⟩,
       ⟨toString y ++ "REG", 1, read (oddsNamedFile (toString y ++ "REG") 1)⟩]
      = ([⟨toString y ++ "REG", 2, read (oddsNamedFile (toString y ++ "REG") 2)⟩,
          ⟨toString y ++ "REG", 1, read (oddsNamedFile (toString y ++ "REG") 1)⟩,
          ⟨toString y ++ "PRE", 3, read (oddsNamedFile (toString y ++ "PRE") 3)⟩,
          ⟨toString y ++ "PRE", 2, read (oddsNamedFile (toString y ++ "PRE") 2)⟩,
          ⟨toString y ++ "PRE", 1, read (oddsNamedFile (toString y ++ "PRE") 1)⟩],
         5) := by
    rw [hrange2, atsPass_cons_hit hP3 (by norm_num),
      atsPass_cons_hit hP2 (by norm_num),
      atsPass_cons_hit hP1 (by norm_num),
      atsPass_cons_skip p0 (by decide), atsPass_cons_skip p1 (by decide),
      atsPass_cons_skip p2 (by decide), atsPass_cons_skip p3 (by decide),
      atsPass_cons_skip p4 (by decide),
      atsPass_nil]
    norm_num
  have s1 : atsLoop exists? read y 2 12 (toString y ++ "REG") 2 10 []
      = atsLoop exists? read y 2 11 (toString y ++ "PRE") 3 8
        [⟨toString y ++ "REG", 2, read (oddsNamedFile (toString y ++ "REG") 2)⟩,
         ⟨toString y ++ "REG", 1, read (oddsNamedFile (toString y ++ "REG") 1)⟩] := by
    have h10 : ¬((10 : Int) ≤ 0) := by norm_num
    rw [show atsLoop exists? read y 2 12 (toString y ++ "REG") 2 10 []
          = atsLoop exists? read y 2 (11 + 1) (toString y ++ "REG") 2 10 []
        from rfl,
      atsLoop_step 11 h10, hp1]
    simp only []
    rw [if_neg (by norm_num), if_pos (strEndsWith_append_self _ _)]
  have s2 : atsLoop exists? read y 2 11 (toString y ++ "PRE") 3 8
      [⟨toString y ++ "REG", 2, read (oddsNamedFile (toString y ++ "REG") 2)⟩,
       ⟨toString y ++ "REG", 1, read (oddsNamedFile (toString y ++ "REG") 1)⟩]
      = [⟨toString y ++ "REG", 2, read (oddsNamedFile (toString y ++ "REG") 2)⟩,
         ⟨toString y ++ "REG", 1, read (oddsNamedFile (toString y ++ "REG") 1)⟩,
         ⟨toString y ++ "PRE", 3, read (oddsNamedFile (toString y ++ "PRE") 3)⟩,
         ⟨toString y ++ "PRE", 2, read (oddsNamedFile (toString y ++ "PRE") 2)⟩,
         ⟨toString y ++ "PRE", 1, read (oddsNamedFile (toString y ++ "PRE") 1)⟩] := by
    have h8 : ¬((8 : Int) ≤ 0) := by norm_num
    rw [show atsLoop exists? read y 2 11 (toString y ++ "PRE") 3 8
            [⟨toString y ++ "REG", 2, read (oddsNamedFile (toString y ++ "REG") 2)⟩,
             ⟨toString y ++ "REG", 1, read (oddsNamedFile (toString y ++ "REG") 1)⟩]
          = atsLoop exists? read y 2 (10 + 1) (toString y ++ "PRE") 3 8
            [⟨toString y ++ "REG", 2, read (oddsNamedFile (toString y ++ "REG") 2)⟩,
             ⟨toString y ++ "REG", 1, read (oddsNamedFile (toString y ++ "REG") 1)⟩]
        from rfl,
      atsLoop_step 10 h8, hp2]
    simp only []
    rw [if_neg (by norm_num), if_neg (by rw [strEndsWith_PRE_REG]; exact Bool.false_ne_true),
      if_pos (strEndsWith_append_self _ _)]
  unfold cache_ats_data
  rw [s1, s2]

/-- On-disk state for the C8 witness: exactly the five reachable odds
files of year 2025 exist. -/
def atsFiles : List String :=
  ["odds_data/2025REG_1.csv", "odds_data/2025REG_2.csv",
   "odds_data/2025PRE_1.csv", "odds_data/2025PRE_2.csv",
   "odds_data/2025PRE_3.csv"]

/-- Witness for `ats_window_boundary` at year 2025 with empty file
contents: exactly five week-groups, in the claimed order. -/
theorem ats_window_boundary_witness :
    cache_ats_data (fun f => atsFiles.contains f) (fun f => [])
        (toString (2025 : Int) ++ "REG") 2025 2 2
      = [⟨toString (2025 : Int) ++ "REG", 2, []⟩,
         ⟨toString (2025 : Int) ++ "REG", 1, []⟩,
         ⟨toString (2025 : Int) ++ "PRE", 3, []⟩,
         ⟨toString (2025 : Int) ++ "PRE", 2, []⟩,
         ⟨toString (2025 : Int) ++ "PRE", 1, []⟩] :=
  ats_window_boundary 2025 (fun f => atsFiles.contains f) (fun f => [])
    (by decide) (by decide) (by decide) (by decide) (by decide)
    (by decide) (by decide)

/-- Today's date, as read by the fallback paths via `datetime.now()`. -/
structure Date where
  year : Nat
  month : Nat
  day : Nat
deriving DecidableEq, Repr

/-- Value of `fetch_current_season_year()` (lines 14-30): trust a 200
response verbatim, otherwise fall back to the calendar rule.  The GET is
issued in both cases. -/
def resolveYear (fetch : String → Response) (today : Date) : Int :=
  let r := fetch currentSeasonUrl
  if r.status == 200 then r.intVal
  else (fallbackSeasonYear today.month today.year : Int)

/-- Value of `fetch_current_week()` (lines 32-54). -/
def resolveWeek (fetch : String → Response) (today : Date) : Int :=
  let r := fetch currentWeekUrl
  if r.status == 200 then r.intVal
  else fallbackWeek today.year today.month today.day

/-- Effects of `cache_ats_data` including its own fresh
`fetch_current_week()` call on line 233 (`end_week`), which issues one
more CurrentWeek GET; the collected groups are written to the single ATS
JSON document. -/
def cache_ats_dataEff (fetch : String → Response) (exists? : String → Bool)
    (read : String → List RRow) (today : Date) (stype : String)
    (seasonYear : Int) (thisWeek : Int) : Eff × List AtsGroup :=
  let endW := resolveWeek fetch today
  let groups := cache_ats_data exists? read stype seasonYear endW thisWeek
  (⟨[currentWeekUrl], [], []⟩, groups)

/-- The whole run of the script (module import plus `__main__` block,
lines 110-111 and 308-325): module import resolves `THIS_YEAR` and
`THIS_WEEK` once each; the main block then resolves the season year a
second time (line 309), backfills, refreshes the current REG season and
builds the ATS summary, whose builder re-resolves the current week
(line 233). -/
def mainRun (fetch : String → Response) (exists? : String → Bool)
    (read : String → List RRow) (today : Date) : Eff :=
  let y0 := resolveYear fetch today
  let w0 := resolveWeek fetch today
  let importEff : Eff := ⟨[currentSeasonUrl, currentWeekUrl], [], []⟩
  let y1 := resolveYear fetch today
  let mainResolveEff : Eff := ⟨[currentSeasonUrl], [], []⟩
  let regT := toString y1 ++ "REG"
  appendEff importEff
    (appendEff mainResolveEff
      (appendEff (cache_old_data (toString y0) w0 exists? fetch)
        (appendEff (cache_schedule_data regT fetch)
          (appendEff (cache_odds_data (toString y0) w0 regT fetch)
            (appendEff (cache_scores_data (toString y0) w0 regT fetch)
              (cache_ats_dataEff fetch exists? read today regT y1 w0).1)))))

theorem string_ne_of_data_ne {a b : String} (h : a.data ≠ b.data) : a ≠ b :=
  fun e => h (congrArg String.data e)

theorem oddsWeekUrl_ne_seasonUrl (season : String) (w : Int) :
    oddsWeekUrl season w ≠ currentSeasonUrl := by
  refine string_ne_of_data_ne ?_
  unfold oddsWeekUrl currentSeasonUrl
  rw [String.data_append, String.data_append, String.data_append]
  intro h
  have h2 := List.append_cancel_left h
  simp at h2

theorem oddsWeekUrl_ne_weekUrl (season : String) (w : Int) :
    oddsWeekUrl season w ≠ currentWeekUrl := by
  refine string_ne_of_data_ne ?_
  unfold oddsWeekUrl currentWeekUrl
  rw [String.data_append, String.data_append, String.data_append]
  intro h
  have h2 := List.append_cancel_left h
  simp at h2

theorem scoresWeekUrl_ne_seasonUrl (season : String) (w : Int) :
    scoresWeekUrl season w ≠ currentSeasonUrl := by
  refine string_ne_of_data_ne ?_
  unfold scoresWeekUrl currentSeasonUrl
  rw [String.data_append, String.data_append, String.data_append]
  intro h
  have h2 := List.append_cancel_left h
  simp at h2

theorem scoresWeekUrl_ne_weekUrl (season : String) (w : Int) :
    scoresWeekUrl season w ≠ currentWeekUrl := by
  refine string_ne_of_data_ne ?_
  unfold scoresWeekUrl currentWeekUrl
  rw [String.data_append, String.data_append, String.data_append]
  intro h
  have h2 := List.append_cancel_left h
  simp at h2

theorem scheduleUrl_ne_seasonUrl (season : String) :
    scheduleUrl season ≠ currentSeasonUrl := by
  refine string_ne_of_data_ne ?_
  unfold scheduleUrl currentSeasonUrl
  rw [String.data_append, String.data_append, String.data_append]
  intro h
  have h2 := List.append_cancel_left h
  simp at h2

theorem scheduleUrl_ne_weekUrl (season : String) :
    scheduleUrl season ≠ currentWeekUrl := by
  refine string_ne_of_data_ne ?_
  unfold scheduleUrl currentWeekUrl
  rw [String.data_append, String.data_append, String.data_append]
  intro h
  have h2 := List.append_cancel_left h
  simp at h2

theorem oddsWeekStep_requests (tw : Int) (season : String)
    (fetch : String → Response) (w : Int) :
    (oddsWeekStep tw season fetch w).requests = [oddsWeekUrl season w] := by
  unfold oddsWeekStep
  rcases h : (fetch (oddsWeekUrl season w)).status == 200 with _ | _ <;> simp [h]

theorem scoresWeekStep_requests (season : String)
    (fetch : String → Response) (w : Int) :
    (scoresWeekStep season fetch w).requests = [scoresWeekUrl season w] := by
  unfold scoresWeekStep
  rcases h : (fetch (scoresWeekUrl season w)).status == 200 with _ | _ <;> simp [h]

theorem cache_odds_data_requests (ty season : String) (tw : Int)
    (fetch : String → Response) :
    (cache_odds_data ty tw season fetch).requests
      = (oddsWeekRange ty tw season).map (oddsWeekUrl season) :=
  runWeeks_requests_eq _ _ (oddsWeekStep_requests tw season fetch) _

theorem cache_scores_data_requests (ty season : String) (tw : Int)
    (fetch : String → Response) :
    (cache_scores_data ty tw season fetch).requests
      = (scoresWeekRange ty tw season).map (scoresWeekUrl season) :=
  runWeeks_requests_eq _ _ (scoresWeekStep_requests season fetch) _

theorem cache_schedule_data_requests (season : String)
    (fetch : String → Response) :
    (cache_schedule_data season fetch).requests = [scheduleUrl season] := by
  unfold cache_schedule_data
  rcases h : (fetch (scheduleUrl season)).status == 200 with _ | _ <;> simp [h]

theorem count_map_zero {α : Type} (U : α → String) (u : String)
    (h : ∀ a, U a ≠ u) (l : List α) : (l.map U).count u = 0 := by
  rw [List.count_eq_zero]
  intro hm
  obtain ⟨a, _, ha⟩ := List.mem_map.mp hm
  exact h a ha

theorem mem_concatEffs_requests {u : String} :
    ∀ {l : List Eff}, u ∈ (concatEffs l).requests → ∃ e ∈ l, u ∈ e.requests := by
  intro l
  induction l with
  | nil =>
    intro h
    simp [concatEffs, emptyEff] at h
  | cons e es ih =>
    intro h
    simp only [concatEffs, appendEff] at h
    rcases List.mem_append.mp h with h | h
    · exact ⟨e, by simp, h⟩
    · obtain ⟨e2, he2, hu⟩ := ih h
      exact ⟨e2, by simp [he2], hu⟩

theorem cache_old_data_count_zero (ty : String) (tw : Int)
    (exists? : String → Bool) (fetch : String → Response) (u : String)
    (h1 : ∀ s, scheduleUrl s ≠ u) (h2 : ∀ s w, oddsWeekUrl s w ≠ u)
    (h3 : ∀ s w, scoresWeekUrl s w ≠ u) :
    (cache_old_data ty tw exists? fetch).requests.count u = 0 := by
  rw [List.count_eq_zero]
  intro hmem
  unfold cache_old_data at hmem
  obtain ⟨eff, heff, hu⟩ := mem_concatEffs_requests hmem
  obtain ⟨season, hs, rfl⟩ := List.mem_map.mp heff
  unfold backfillSeason at hu
  simp only [appendEff] at hu
  rcases List.mem_append.mp hu with hu | hu
  · unfold backfillSchedule at hu
    split at hu
    · simp [emptyEff] at hu
    · unfold wrapLogs at hu
      rw [cache_schedule_data_requests] at hu
      simp only [List.mem_singleton] at hu
      exact h1 season hu.symm
  · rcases List.mem_append.mp hu with hu | hu
    · obtain ⟨eff2, heff2, hu2⟩ := mem_concatEffs_requests hu
      obtain ⟨w, hw, rfl⟩ := List.mem_map.mp heff2
      unfold backfillOddsWeek at hu2
      split at hu2
      · simp [emptyEff] at hu2
      · unfold wrapLogs at hu2
        rw [cache_odds_data_requests] at hu2
        obtain ⟨w2, _, hw2⟩ := List.mem_map.mp hu2
        exact h2 season w2 hw2
    · obtain ⟨eff2, heff2, hu2⟩ := mem_concatEffs_requests hu
      obtain ⟨w, hw, rfl⟩ := List.mem_map.mp heff2
      unfold backfillScoresWeek at hu2
      split at hu2
      · simp [emptyEff] at hu2
      · unfold wrapLogs at hu2
        rw [cache_scores_data_requests] at hu2
        obtain ⟨w2, _, hw2⟩ := List.mem_map.mp hu2
        exact h3 season w2 hw2

/-- C9 (amended): the current year and week ARE resolved into module
constants at import time and reused by the cache writers and the backfill
orchestrator, but they are not resolved exactly once: the driver
re-resolves the season year (line 309) and the ATS builder re-resolves the
current week (line 233), so every run issues exactly two CurrentSeason
requests and exactly two CurrentWeek requests, and the later components
read the freshly resolved values rather than the startup constants. -/
theorem resolver_call_count (fetch : String → Response)
    (exists? : String → Bool) (read : String → List RRow) (today : Date) :
    (mainRun fetch exists? read today).requests.count currentSeasonUrl = 2
    ∧ (mainRun fetch exists? read today).requests.count currentWeekUrl = 2 := by
  have hSW : currentSeasonUrl ≠ currentWeekUrl := by decide
  unfold mainRun cache_ats_dataEff
  simp only [appendEff]
  constructor
  · rw [List.count_append, List.count_append, List.count_append,
      List.count_append, List.count_append, List.count_append,
      cache_old_data_count_zero _ _ _ _ _ (scheduleUrl_ne_seasonUrl)
        (oddsWeekUrl_ne_seasonUrl) (scoresWeekUrl_ne_seasonUrl),
      cache_schedule_data_requests, cache_odds_data_requests,
      cache_scores_data_requests,
      count_map_zero _ _ (fun w => oddsWeekUrl_ne_seasonUrl _ w),
      count_map_zero _ _ (fun w => scoresWeekUrl_ne_seasonUrl _ w)]
    simp [List.count_cons, List.count_singleton, hSW,
      scheduleUrl_ne_seasonUrl]
  · rw [List.count_append, List.count_append, List.count_append,
      List.count_append, List.count_append, List.count_append,
      cache_old_data_count_zero _ _ _ _ _ (scheduleUrl_ne_weekUrl)
        (oddsWeekUrl_ne_weekUrl) (scoresWeekUrl_ne_weekUrl),
      cache_schedule_data_requests, cache_odds_data_requests,
      cache_scores_data_requests,
      count_map_zero _ _ (fun w => oddsWeekUrl_ne_weekUrl _ w),
      count_map_zero _ _ (fun w => scoresWeekUrl_ne_weekUrl _ w)]
    simp [List.count_cons, List.count_singleton, hSW.symm,
      scheduleUrl_ne_weekUrl]

/-- Environment for the C9 counterexample: upstream always answers 404,
every cache file exists, files read as empty. -/
def fetchDown : String → Response := fun u => ⟨404, 0, []⟩

def allExist : String → Bool := fun f => true

def emptyRead : String → List RRow := fun f => []

/-- C9 counterexample: in a concrete full run the CurrentSeason and
CurrentWeek endpoints are each requested twice — once at import time and
once more by the later steps (the driver re-resolves the year on line 309
and the ATS builder re-resolves the week on line 233) — refuting "resolved
exactly once at process startup" and "no later step re-resolves them". -/
theorem resolver_once_counterexample :
    (mainRun fetchDown allExist emptyRead ⟨2025, 10, 12⟩).requests.count
        currentSeasonUrl = 2
    ∧ (mainRun fetchDown allExist emptyRead ⟨2025, 10, 12⟩).requests.count
        currentWeekUrl = 2
    ∧ (2 : Nat) ≠ 1 := by
  refine ⟨by decide, by decide, by decide⟩
